import Mathlib

/-!
Verification of the navigation-collision-arbitration and temporal-state engine
of the splat-time-toggle template.

The JavaScript sources are shallowly embedded as executable Lean definitions:
  * `lineSegmentsIntersect`, `checkWallCollision` — wall-system (2D boundary arbiter);
  * `CollisionState`, `checkCollision`, `testPhysicsReady` — collision-system
    (mesh arbiter and physics-readiness handshake);
  * `TTState`, `loadStateSync`, `stepProc`, `applyMove` — time-toggle-system
    (variant loading and the debounced switch protocol, modelled as a small-step
    system whose coroutines suspend exactly at the source's `await` points);
  * `updateFrame` — the per-frame movement arbitration in the main update loop.

Numbers are modelled over `ℚ` (the JS engine uses IEEE doubles; all concrete
inputs used below are exactly representable and all comparisons are exact).
Euclidean distances are compared through their squares: for nonnegative radii,
`dist < r` iff `dist² < r²`, which keeps every definition executable over `ℚ`.
-/

namespace Splat

/-! ## Geometric intersection utility (wall-system, `lineSegmentsIntersect`) -/

/-- 2D point on the horizontal plane, projected coordinates (x, z). -/
structure PosXZ where
  x : ℚ
  z : ℚ
deriving DecidableEq

/-- 3D position; y is vertical. -/
structure Vec3 where
  x : ℚ
  y : ℚ
  z : ℚ
deriving DecidableEq

/-- Wall segment: `{ name, start, end, color }` from wall-system. The JS `end`
field is named `endPt` (`end` is a Lean keyword). -/
structure Segment where
  name : String
  start : PosXZ
  endPt : PosXZ
  color : Nat
deriving DecidableEq

/-- Source `lineSegmentsIntersect(x1,y1,x2,y2,x3,y3,x4,y4)`: denominator test
against 1e-4, then parametric positions t and u, intersection iff both in
[0, 1]. -/
def lineSegmentsIntersect (x1 y1 x2 y2 x3 y3 x4 y4 : ℚ) : Bool :=
  let denom := (x1 - x2) * (y3 - y4) - (y1 - y2) * (x3 - x4)
  if |denom| < 1/10000 then
    false
  else
    let t := ((x1 - x3) * (y3 - y4) - (y1 - y3) * (x3 - x4)) / denom
    let u := -((x1 - x2) * (y1 - y3) - (y1 - y2) * (x1 - x3)) / denom
    decide (0 ≤ t) && decide (t ≤ 1) && decide (0 ≤ u) && decide (u ≤ 1)

/-- Source `checkWallCollision(oldPos, newPos)`: scans the wall list in order,
short-circuiting on the first intersecting segment.  The process-wide
`WALL_SEGMENTS` array is passed explicitly. -/
def checkWallCollision (walls : List Segment) (oldPos newPos : Vec3) : Bool :=
  walls.any fun segment =>
    lineSegmentsIntersect oldPos.x oldPos.z newPos.x newPos.z
      segment.start.x segment.start.z segment.endPt.x segment.endPt.z

/-! ## Mesh collision arbiter (collision-system, `checkCollision`) -/

/-- Outcome of `app.systems.rigidbody.raycastFirst`: a thrown error, no hit
(null result or result without entity), or a hit carrying the hit point. -/
inductive RayResult where
  | error
  | noHit
  | hit (point : Vec3)
deriving DecidableEq

/-- Observable state of `CollisionSystem`: `collisionEnabled`,
`collisionMesh` (true iff the mesh handle is non-null), `physicsReady`,
and `collisionRadius`. -/
structure CollisionState where
  collisionEnabled : Bool
  collisionMesh : Bool
  physicsReady : Bool
  collisionRadius : ℚ
deriving DecidableEq

/-- `CollisionSystem` constructor state: disabled, no mesh, physics not
ready, radius 0.3. -/
def initCollisionState : CollisionState :=
  { collisionEnabled := false, collisionMesh := false, physicsReady := false
    collisionRadius := 3/10 }

/-- Squared Euclidean distance between two positions. -/
def dist2 (a b : Vec3) : ℚ :=
  (a.x - b.x) ^ 2 + (a.y - b.y) ^ 2 + (a.z - b.z) ^ 2

/-- Source `CollisionSystem.checkCollision(currentPos, newPos)`: fail-open
guards, zero-length early exit (`distance === 0` iff the squared length is 0),
raycast, and block iff the hit is strictly closer than the clearance radius
(compared through squares). Errors from the raycast yield false. -/
def checkCollision (s : CollisionState) (ray : Vec3 → Vec3 → RayResult)
    (currentPos newPos : Vec3) : Bool :=
  if !s.collisionEnabled || !s.collisionMesh || !s.physicsReady then
    false
  else if dist2 newPos currentPos = 0 then
    false
  else
    match ray currentPos newPos with
    | .hit p => decide (dist2 p currentPos < s.collisionRadius ^ 2)
    | .noHit => false
    | .error => false

/-! ## Physics-readiness handshake (collision-system, `_testPhysicsReady`)

`_setupCollisionMesh` schedules `_testPhysicsReady` at three staggered delays
(100 ms, 500 ms, 1000 ms).  Each run of `_testPhysicsReady` either returns
(already ready / rigidbody system or mesh missing / probe outcome) or — when
`app.systems.rigidbody.dynamicsWorld` is not yet initialised — schedules one
more run of itself after 100 ms.  The timer queue is modelled by a pending
counter; `invoked` counts executed runs of `_testPhysicsReady`. -/

/-- Externally observable environment of one `_testPhysicsReady` run. -/
structure PhysEnv where
  rigidbody : Bool
  mesh : Bool
  world : Bool
  probeOk : Bool
deriving DecidableEq

/-- State of the readiness handshake plus the timer queue. -/
structure PhysState where
  physicsReady : Bool
  collisionEnabled : Bool
  pending : Nat
  invoked : Nat
deriving DecidableEq

/-- One run of `_testPhysicsReady` in environment `env`. -/
def testPhysicsReady (env : PhysEnv) (s : PhysState) : PhysState :=
  if s.physicsReady then s
  else if !env.rigidbody || !env.mesh then s
  else if !env.world then { s with pending := s.pending + 1 }
  else if env.probeOk then { s with physicsReady := true, collisionEnabled := true }
  else s

/-- The timer queue fires one scheduled callback (if any). -/
def timerStep (env : PhysEnv) (s : PhysState) : PhysState :=
  if s.pending = 0 then s
  else testPhysicsReady env
    { s with pending := s.pending - 1, invoked := s.invoked + 1 }

/-- State right after `_setupCollisionMesh` scheduled its three attempts. -/
def afterSetup : PhysState :=
  { physicsReady := false, collisionEnabled := false, pending := 3, invoked := 0 }

/-- Run `n` timer firings under a per-step environment. -/
def runPhys (envs : Nat → PhysEnv) : Nat → PhysState → PhysState
  | 0, s => s
  | n + 1, s => runPhys envs n (timerStep (envs n) s)

/-- Environment where the dynamics world never initialises but everything
else is fine. -/
def envNoWorld : PhysEnv :=
  { rigidbody := true, mesh := true, world := false, probeOk := true }

/-! ## Temporal capture manager (time-toggle-system)

`TimeToggleSystem` owns the variant list, per-variant load states
(`loadingStates`, absent = unloaded), the scene-graph entities
(`splatEntities`), the active id and the transition lock (`switchLock`).
`loadTimeState` and `switchToTime` are `async`; in the single-threaded JS
runtime control can change hands only at their `await` points.  The model
therefore splits `switchToTime` into the synchronous segments between awaits
(`Phase` below) and lets a scheduler interleave any number of such coroutines
with the asset loader's completion callbacks (`Move.assetReady` /
`Move.assetError`).

The entity-placement math (alignment matrix decomposition, LOD distances) only
sets local transform data that none of the modelled observations read; the
entity model keeps the identity of the handle and its `enabled` flag, which is
what the switch protocol and the claims observe. -/

/-- Per-variant load state.  A missing `loadingStates` entry reads as
`unloaded` (in JS, `undefined` compares unequal to both markers). -/
inductive LoadState where
  | unloaded
  | loading
  | loaded
  | error
deriving DecidableEq

/-- One entry of `config.timeToggle.times`. -/
structure TimeEntry where
  id : String
  label : String
  path : String
deriving DecidableEq

/-- Scene-graph entity handle: creation identity plus the `enabled` flag. -/
structure Entity where
  handle : Nat
  enabled : Bool
deriving DecidableEq

/-- Association-list lookup by key. -/
def alookup {α : Type} : List (String × α) → String → Option α
  | [], _ => none
  | (k', v) :: rest, k => if k' = k then some v else alookup rest k

/-- Association-list insert-or-update. -/
def aset {α : Type} : List (String × α) → String → α → List (String × α)
  | [], k, v => [(k, v)]
  | (k', v') :: rest, k, v =>
      if k' = k then (k, v) :: rest else (k', v') :: aset rest k v

/-- Mutable state of a `TimeToggleSystem` instance.  `loadRequests` logs the
`app.assets.load` calls that reached the asset loader, in order. -/
structure TTState where
  times : List TimeEntry
  activeTimeId : String
  splatEntities : List (String × Entity)
  loadingStates : List (String × LoadState)
  switchLock : Bool
  nextHandle : Nat
  loadRequests : List String
deriving DecidableEq

/-- `this.loadingStates[timeId]`, with `undefined` read as `unloaded`. -/
def lookupLS (s : TTState) (tid : String) : LoadState :=
  (alookup s.loadingStates tid).getD .unloaded

/-- Result of the synchronous part of `loadTimeState` (everything before its
first suspension). -/
inductive LoadStart where
  | unknownId
  | alreadyLoaded (e : Option Entity)
  | waitInflight
  | issuedLoad
deriving DecidableEq

/-- Synchronous segment of `loadTimeState(timeId)`: unknown-id check, the
`loaded` fast path returning the existing handle, the `loading` path that
waits for the in-flight load, and otherwise marking `loading` and issuing
exactly one request to the asset loader. -/
def loadStateSync (s : TTState) (tid : String) : TTState × LoadStart :=
  if (s.times.find? (fun t => t.id = tid)).isNone then
    (s, .unknownId)
  else if lookupLS s tid = .loaded then
    (s, .alreadyLoaded (alookup s.splatEntities tid))
  else if lookupLS s tid = .loading then
    (s, .waitInflight)
  else
    ({ s with loadingStates := aset s.loadingStates tid .loading,
              loadRequests := s.loadRequests ++ [tid] }, .issuedLoad)

/-- `asset.ready` handler of `loadTimeState`: creates the entity (hidden when
`timeId` is not the active id), registers it, and marks the variant loaded. -/
def loadReady (s : TTState) (tid : String) : TTState :=
  let e : Entity := { handle := s.nextHandle, enabled := tid = s.activeTimeId }
  { s with splatEntities := aset s.splatEntities tid e,
           loadingStates := aset s.loadingStates tid .loaded,
           nextHandle := s.nextHandle + 1 }

/-- `asset.on('error')` handler of `loadTimeState`: marks the variant `error`
and rejects the caller's promise with the cause. -/
def assetErrorHandler (s : TTState) (tid errCause : String) :
    TTState × Except String Entity :=
  ({ s with loadingStates := aset s.loadingStates tid .error }, .error errCause)

/-- The poll-based wait of `loadTimeState`: each tick of the `setInterval`
resolves with `this.splatEntities[timeId]` once the state reads `loaded`,
and keeps waiting otherwise (also on `error`: the poll only tests `loaded`). -/
def resolvePoll (s : TTState) (tid : String) : Option (Option Entity) :=
  if lookupLS s tid = .loaded then some (alookup s.splatEntities tid) else none

/-- Set the `enabled` flag of the entity registered for `tid` (no-op when no
entity is registered, mirroring a JS member write through `undefined` never
being reached on the modelled paths). -/
def setEnabled (s : TTState) (tid : String) (b : Bool) : TTState :=
  match alookup s.splatEntities tid with
  | some e =>
      { s with splatEntities := aset s.splatEntities tid { e with enabled := b } }
  | none => s

/-- Final outcome of one `switchToTime` invocation. -/
inductive Outcome where
  | noop
  | dropped
  | missingEntity
  | errored
  | completed
deriving DecidableEq

/-- Program counter of one `switchToTime(timeId)` coroutine, one constructor
per synchronous segment between the source's suspension points:
`start` is the invocation, `awaitingLoad` suspends on the promise of a load
this call issued, `awaitingPoll` suspends on the poll-wait for a load already
in flight, `resumeLoad` runs the entity checks and enables the target,
`waitingFrames` is the two-`requestAnimationFrame` wait that then disables the
source, `finishSwap` commits the active id and fires the change callback, and
`cooldown` is the pending 300 ms `setTimeout` that releases the lock. -/
inductive Phase where
  | start (tid : String)
  | awaitingLoad (tid : String)
  | awaitingPoll (tid : String)
  | resumeLoad (tid : String)
  | waitingFrames (tid fromId : String)
  | finishSwap (tid : String)
  | cooldown
  | done (o : Outcome)
deriving DecidableEq

/-- One scheduler step of a `switchToTime` coroutine: the list of possible
`(state, phase)` successors (empty when the coroutine cannot run: finished,
or suspended on a condition that has not occurred). -/
def stepProc (s : TTState) : Phase → List (TTState × Phase)
  | .start tid =>
      if tid = s.activeTimeId then
        [(s, .done .noop)]
      else if s.switchLock then
        [(s, .done .dropped)]
      else
        let s1 := { s with switchLock := true }
        if lookupLS s1 tid = .loaded then
          [(s1, .resumeLoad tid)]
        else
          match loadStateSync s1 tid with
          | (s2, .unknownId) => [(s2, .resumeLoad tid)]
          | (s2, .alreadyLoaded _) => [(s2, .resumeLoad tid)]
          | (s2, .waitInflight) => [(s2, .awaitingPoll tid)]
          | (s2, .issuedLoad) => [(s2, .awaitingLoad tid)]
  | .awaitingLoad tid =>
      match lookupLS s tid with
      | .loaded => [(s, .resumeLoad tid)]
      | .error => [(s, .done .errored)]
      | _ => []
  | .awaitingPoll tid =>
      match lookupLS s tid with
      | .loaded => [(s, .resumeLoad tid)]
      | _ => []
  | .resumeLoad tid =>
      match alookup s.splatEntities s.activeTimeId, alookup s.splatEntities tid with
      | some _, some _ =>
          [(setEnabled s tid true, .waitingFrames tid s.activeTimeId)]
      | _, _ =>
          [({ s with switchLock := false }, .done .missingEntity)]
  | .waitingFrames tid fromId =>
      [(setEnabled s fromId false, .finishSwap tid)]
  | .finishSwap tid =>
      [({ s with activeTimeId := tid }, .cooldown)]
  | .cooldown =>
      [({ s with switchLock := false }, .done .completed)]
  | .done _ => []

/-- A configuration: the shared system state and the coroutines in flight. -/
structure Cfg where
  state : TTState
  procs : List Phase
deriving DecidableEq

/-- Scheduler moves: spawn a new `switchToTime` request, run coroutine `i`
(choosing successor `c`), or deliver an asset-loader completion callback for
a load in flight. -/
inductive Move where
  | spawn (tid : String)
  | run (i c : Nat)
  | assetReady (tid : String)
  | assetError (tid : String)

/-- Apply one scheduler move (none when the move is not enabled). -/
def applyMove (cfg : Cfg) : Move → Option Cfg
  | .spawn tid => some ⟨cfg.state, cfg.procs ++ [.start tid]⟩
  | .run i c => do
      let p ← cfg.procs.get? i
      let sp ← (stepProc cfg.state p).get? c
      pure ⟨sp.1, cfg.procs.set i sp.2⟩
  | .assetReady tid =>
      if lookupLS cfg.state tid = .loading then
        some ⟨loadReady cfg.state tid, cfg.procs⟩
      else none
  | .assetError tid =>
      if lookupLS cfg.state tid = .loading then
        some ⟨(assetErrorHandler cfg.state tid "load failed").1, cfg.procs⟩
      else none

/-- One step of the whole system. -/
def SysStep (c c' : Cfg) : Prop := ∃ m, applyMove c m = some c'

/-- Reachability by scheduler steps. -/
def Reach (c c' : Cfg) : Prop := Relation.ReflTransGen SysStep c c'

/-- Run an explicit schedule of moves. -/
def runMoves (cfg : Cfg) : List Move → Option Cfg
  | [] => some cfg
  | m :: ms => (applyMove cfg m).bind fun c => runMoves c ms

/-- State after `initialize()` completed: the constructor set the active id to
the configured default and the lock to false; `initialize` then loaded the
default variant (one request to the asset loader) whose entity is enabled. -/
def initState (times0 : List TimeEntry) (dflt : String) : TTState :=
  { times := times0, activeTimeId := dflt,
    splatEntities := [(dflt, { handle := 0, enabled := true })],
    loadingStates := [(dflt, .loaded)],
    switchLock := false, nextHandle := 1, loadRequests := [dflt] }

/-- Initial configuration: post-initialisation state, no switch in flight. -/
def initCfg (times0 : List TimeEntry) (dflt : String) : Cfg :=
  ⟨initState times0 dflt, []⟩

/-- Phases holding the transition lock: every segment of a `switchToTime` run
after the guard acquired the lock and before the run released it (or leaked
it by terminating on a load rejection). -/
def holdsLockPhase : Phase → Bool
  | .awaitingLoad _ => true
  | .awaitingPoll _ => true
  | .resumeLoad _ => true
  | .waitingFrames _ _ => true
  | .finishSwap _ => true
  | .cooldown => true
  | _ => false

/-- The ids declared in a variant list. -/
def idsOf (ts : List TimeEntry) : List String := ts.map (fun t => t.id)

/-- The two-variant configuration of `config.js`. -/
def demoTimes : List TimeEntry :=
  [{ id := "primary", label := "Before", path := "./splats/primary/" },
   { id := "secondary", label := "After", path := "./splats/secondary/" }]

/-! ## Navigation loop arbitration (main `app.on('update')` handler)

The candidate position is computed from the input axes before the arbitration
block; the arbitration itself only consumes `(currentPos, newPos)`, so the
candidate is taken as an input here.  In walk mode the handler consults, in
order, `collisionSystem.checkCollision`, then (gated by
`wallCollisionEnabled`) `checkWallCollision`, then (when a portal system
exists) `portalSystem.checkMovementBlocked`; the first `true` zeroes the
smoothed joystick vector and returns from the frame handler, leaving the
camera at its old position and skipping everything after the arbitration —
including `portalSystem.update(dt)` and `portalSystem.checkCollision` on the
committed position.  In fly mode the whole arbitration block is skipped. -/

/-- Tags for the three arbiters, in their fixed priority order. -/
inductive Arbiter where
  | mesh
  | wall
  | portal
deriving DecidableEq

/-- Observable result of one frame of the movement handler. -/
structure FrameOut where
  cameraPos : Vec3
  accepted : Bool
  smoothReset : Bool
  portalUpdated : Bool
  portalCheckPos : Option Vec3
  consulted : List Arbiter
deriving DecidableEq

/-- One frame of the `app.on('update')` handler from the candidate position
onward.  `consulted` records which arbiters were evaluated, in evaluation
order (JS `&&` and the early returns short-circuit). -/
def updateFrame (flyMode wallCollisionEnabled portalPresent : Bool)
    (cs : CollisionState) (ray : Vec3 → Vec3 → RayResult)
    (walls : List Segment) (portalBlocks : Vec3 → Vec3 → Bool)
    (currentPos newPos : Vec3) : FrameOut :=
  let wallTag : List Arbiter := if wallCollisionEnabled then [.wall] else []
  let portalTag : List Arbiter := if portalPresent then [.portal] else []
  if !flyMode then
    if checkCollision cs ray currentPos newPos then
      { cameraPos := currentPos, accepted := false, smoothReset := true
        portalUpdated := false, portalCheckPos := none, consulted := [.mesh] }
    else if wallCollisionEnabled && checkWallCollision walls currentPos newPos then
      { cameraPos := currentPos, accepted := false, smoothReset := true
        portalUpdated := false, portalCheckPos := none
        consulted := [.mesh] ++ wallTag }
    else if portalPresent && portalBlocks currentPos newPos then
      { cameraPos := currentPos, accepted := false, smoothReset := true
        portalUpdated := false, portalCheckPos := none
        consulted := [.mesh] ++ wallTag ++ portalTag }
    else
      { cameraPos := newPos, accepted := true, smoothReset := false
        portalUpdated := portalPresent
        portalCheckPos := if portalPresent then some newPos else none
        consulted := [.mesh] ++ wallTag ++ portalTag }
  else
    { cameraPos := newPos, accepted := true, smoothReset := false
      portalUpdated := portalPresent
      portalCheckPos := if portalPresent then some newPos else none
      consulted := [] }

/-! ## Concrete scenarios used by witnesses and counterexamples -/

/-- Schedule: two `switchToTime("secondary")` requests arrive back to back;
the first acquires the lock and runs to completion, the second lands while
the lock is held. -/
def twoCallMoves : List Move :=
  [.spawn "secondary", .spawn "secondary", .run 0 0, .run 1 0,
   .assetReady "secondary", .run 0 0, .run 0 0, .run 0 0, .run 0 0, .run 0 0]

/-- The observable outcome of `twoCallMoves`: exactly one completed
transition, the second request dropped, one load request for the target. -/
def twoCallScenarioCheck : Bool :=
  match runMoves (initCfg demoTimes "primary") twoCallMoves with
  | none => false
  | some c =>
      decide (c.procs = [.done .completed, .done .dropped])
      && decide (c.state.activeTimeId = "secondary")
      && decide (c.state.loadRequests.count "secondary" = 1)

/-- Schedule: a `switchToTime("secondary")` whose load fails, followed by a
fresh `switchToTime("secondary")` request. -/
def lockLeakMoves : List Move :=
  [.spawn "secondary", .run 0 0, .assetError "secondary", .run 0 0,
   .spawn "secondary", .run 1 0]

/-- The observable outcome of `lockLeakMoves`: the first run terminates on the
rejection with the lock still set, and the later request is dropped. -/
def lockLeakScenarioCheck : Bool :=
  match runMoves (initCfg demoTimes "primary") lockLeakMoves with
  | none => false
  | some c =>
      decide (c.procs = [.done .errored, .done .dropped])
      && decide (c.state.switchLock = true)
      && decide (c.state.activeTimeId = "primary")

/-- Mesh arbiter state with everything enabled and the default radius. -/
def csReady : CollisionState :=
  { collisionEnabled := true, collisionMesh := true, physicsReady := true
    collisionRadius := 3/10 }

/-- The origin. -/
def vOrigin : Vec3 := { x := 0, y := 0, z := 0 }

/-- One unit along x. -/
def vOneX : Vec3 := { x := 1, y := 0, z := 0 }

/-- Raycast oracle that always reports a hit at the origin. -/
def rayHitOrigin : Vec3 → Vec3 → RayResult := fun _ _ => .hit vOrigin

/-- Raycast oracle that never hits. -/
def rayNoHit : Vec3 → Vec3 → RayResult := fun _ _ => .noHit

/-- Portal oracle that never blocks. -/
def noPortalBlock : Vec3 → Vec3 → Bool := fun _ _ => false

/-- A state in which the secondary variant's load has failed while a switch
held the lock (the state reached inside `lockLeakMoves` after the
rejection). -/
def errState : TTState :=
  { times := demoTimes, activeTimeId := "primary",
    splatEntities := [("primary", { handle := 0, enabled := true })],
    loadingStates := [("primary", .loaded), ("secondary", .error)],
    switchLock := true, nextHandle := 1,
    loadRequests := ["primary", "secondary"] }

/-! ## Supporting lemmas -/

theorem alookup_aset {α : Type} (l : List (String × α)) (k x : String) (v : α) :
    alookup (aset l k v) x = if x = k then some v else alookup l x := by
  induction l with
  | nil =>
      by_cases h : x = k
      · subst h; simp [aset, alookup]
      · have h' : ¬ k = x := fun hh => h hh.symm
        simp [aset, alookup, h, h']
  | cons hd tl ih =>
      obtain ⟨k', v'⟩ := hd
      by_cases hk : k' = k
      · subst hk
        by_cases hx : k' = x
        · subst hx; simp [aset, alookup]
        · have hx' : ¬ x = k' := fun hh => hx hh.symm
          simp [aset, alookup, hx, hx']
      · by_cases hx : k' = x
        · have hxk : ¬ x = k := fun hh => hk (hx.trans hh)
          simp [aset, alookup, hk, hx, hxk]
        · simp [aset, alookup, hk, hx, ih]

/-! ## Claim C5: 2D segment intersection -/

/-- Claim C5: `lineSegmentsIntersect` reports no intersection whenever the
denominator is smaller than 1e-4 in absolute value (even for collinear
overlapping segments), and otherwise reports intersection exactly when the
parametric positions `t` and `u` both lie in `[0, 1]`; the spec's example
pairs behave as stated (the third example is a collinear overlapping pair). -/
theorem C5_segment_intersection_contract :
    (∀ x1 y1 x2 y2 x3 y3 x4 y4 : ℚ,
      lineSegmentsIntersect x1 y1 x2 y2 x3 y3 x4 y4 = true ↔
        (¬ |(x1 - x2) * (y3 - y4) - (y1 - y2) * (x3 - x4)| < 1/10000 ∧
          0 ≤ ((x1 - x3) * (y3 - y4) - (y1 - y3) * (x3 - x4)) /
              ((x1 - x2) * (y3 - y4) - (y1 - y2) * (x3 - x4)) ∧
          ((x1 - x3) * (y3 - y4) - (y1 - y3) * (x3 - x4)) /
              ((x1 - x2) * (y3 - y4) - (y1 - y2) * (x3 - x4)) ≤ 1 ∧
          0 ≤ -((x1 - x2) * (y1 - y3) - (y1 - y2) * (x1 - x3)) /
              ((x1 - x2) * (y3 - y4) - (y1 - y2) * (x3 - x4)) ∧
          -((x1 - x2) * (y1 - y3) - (y1 - y2) * (x1 - x3)) /
              ((x1 - x2) * (y3 - y4) - (y1 - y2) * (x3 - x4)) ≤ 1))
  ∧ (∀ x1 y1 x2 y2 x3 y3 x4 y4 : ℚ,
      |(x1 - x2) * (y3 - y4) - (y1 - y2) * (x3 - x4)| < 1/10000 →
      lineSegmentsIntersect x1 y1 x2 y2 x3 y3 x4 y4 = false)
  ∧ lineSegmentsIntersect 0 0 10 0 5 (-5) 5 5 = true
  ∧ lineSegmentsIntersect 0 0 10 0 5 1 5 5 = false
  ∧ lineSegmentsIntersect 0 0 10 0 5 0 15 0 = false := by
  refine ⟨?_, ?_, ?_, ?_, ?_⟩
  · intro x1 y1 x2 y2 x3 y3 x4 y4
    unfold lineSegmentsIntersect
    dsimp only
    split
    next h =>
      simp [h]
      intro h1 h2 h3 h4
      exfalso
      rw [one_div] at h
      exact absurd h1 (not_le.mpr h)
    next h =>
      simp [h, Bool.and_eq_true, decide_eq_true_eq, and_assoc]
      intro h1 h2 h3 h4
      rw [← one_div]
      exact not_lt.mp h
  · intro x1 y1 x2 y2 x3 y3 x4 y4 h
    unfold lineSegmentsIntersect
    dsimp only
    rw [if_pos h]
  · simp only [lineSegmentsIntersect]
    norm_num
  · simp only [lineSegmentsIntersect]
    norm_num
  · simp only [lineSegmentsIntersect]
    norm_num

/-- Witness for C5: the parallel-case conjunct applied at a concrete
collinear overlapping pair. -/
theorem C5_segment_intersection_contract_witness :
    lineSegmentsIntersect 0 0 10 0 5 0 15 0 = false :=
  C5_segment_intersection_contract.2.1 0 0 10 0 5 0 15 0 (by norm_num)

/-! ## Claim C3: mesh arbiter `checkCollision` contract -/

/-- Claim C3: `checkCollision` blocks a movement exactly when collision is
enabled, the mesh is loaded, physics is confirmed ready, the movement has
nonzero length, the raycast reports a hit (no error), and the hit lies
strictly closer to the old position than the clearance radius (distances
compared through their squares, equivalent for a nonnegative radius); in
every other case it returns false, and the constructor default radius
is 0.3. -/
theorem C3_checkCollision_contract :
    (∀ (s : CollisionState) (ray : Vec3 → Vec3 → RayResult)
        (currentPos newPos : Vec3),
      checkCollision s ray currentPos newPos = true ↔
        (s.collisionEnabled = true ∧ s.collisionMesh = true ∧
         s.physicsReady = true ∧ dist2 newPos currentPos ≠ 0 ∧
         ∃ p, ray currentPos newPos = RayResult.hit p ∧
          dist2 p currentPos < s.collisionRadius ^ 2))
  ∧ initCollisionState.collisionRadius = 3/10 := by
  constructor
  · intro s ray a b
    obtain ⟨e, m, r, rad⟩ := s
    cases e with
    | false => simp [checkCollision]
    | true =>
      cases m with
      | false => simp [checkCollision]
      | true =>
        cases r with
        | false => simp [checkCollision]
        | true =>
          by_cases hd : dist2 b a = 0
          · simp [checkCollision, hd]
          · rcases hray : ray a b with _ | _ | p <;>
              simp [checkCollision, hd, hray]
  · rfl

/-- Witness for C3: the fail-open direction at a concrete disabled state. -/
theorem C3_checkCollision_contract_witness :
    checkCollision initCollisionState rayHitOrigin vOrigin vOneX = false := by
  have h := (C3_checkCollision_contract.1 initCollisionState rayHitOrigin
    vOrigin vOneX)
  rcases hc : checkCollision initCollisionState rayHitOrigin vOrigin vOneX with _ | _
  · rfl
  · obtain ⟨he, -⟩ := h.mp hc
    cases he

/-! ## Claim C6: physics-readiness handshake retry bounds -/

theorem timerStep_bound (env : PhysEnv) (s : PhysState)
    (hgood : env.rigidbody = false ∨ env.mesh = false ∨ env.world = true)
    (h : s.invoked + s.pending ≤ 3) :
    (timerStep env s).invoked + (timerStep env s).pending ≤ 3 := by
  obtain ⟨pr, ce, pend, inv⟩ := s
  simp only at h
  unfold timerStep testPhysicsReady
  by_cases h0 : pend = 0
  · simpa [h0] using h
  · simp only [h0, if_false]
    cases pr with
    | true => simpa using by omega
    | false =>
      cases hrb : env.rigidbody with
      | false => simp [hrb]; omega
      | true =>
        cases hm : env.mesh with
        | false => simp [hrb, hm]; omega
        | true =>
          cases hw : env.world with
          | false =>
            exfalso
            rcases hgood with h' | h' | h' <;> simp_all
          | true =>
            cases hpo : env.probeOk with
            | false => simp [hrb, hm, hw, hpo]; omega
            | true => simp [hrb, hm, hw, hpo]; omega

theorem runPhys_bound (envs : Nat → PhysEnv)
    (hgood : ∀ n, (envs n).rigidbody = false ∨ (envs n).mesh = false ∨
      (envs n).world = true) :
    ∀ n (s : PhysState), s.invoked + s.pending ≤ 3 →
      (runPhys envs n s).invoked + (runPhys envs n s).pending ≤ 3 := by
  intro n
  induction n with
  | zero => intro s h; simpa [runPhys] using h
  | succ n ih =>
    intro s h
    rw [runPhys]
    exact ih _ (timerStep_bound _ _ (hgood n) h)

theorem runPhys_noWorld :
    ∀ n k, runPhys (fun _ => envNoWorld) n
        { physicsReady := false, collisionEnabled := false,
          pending := 3, invoked := k } =
      { physicsReady := false, collisionEnabled := false,
        pending := 3, invoked := k + n } := by
  intro n
  induction n with
  | zero => intro k; simp [runPhys]
  | succ n ih =>
    intro k
    rw [runPhys]
    have hstep : timerStep envNoWorld
        { physicsReady := false, collisionEnabled := false,
          pending := 3, invoked := k } =
        { physicsReady := false, collisionEnabled := false,
          pending := 3, invoked := k + 1 } := by
      simp [timerStep, testPhysicsReady, envNoWorld]
    rw [hstep, ih]
    congr 1
    omega

/-- Counterexample to C6: with the rigidbody system and mesh present but the
dynamics world never initialised, a fourth run of `_testPhysicsReady` executes
after only four timer firings — beyond the three scheduled attempts, so the
retry count is not bounded by the schedule. -/
theorem C6_bounded_retry_counterexample :
    (runPhys (fun _ => envNoWorld) 4 afterSetup).invoked = 4 ∧
    ¬ (runPhys (fun _ => envNoWorld) 4 afterSetup).invoked ≤ 3 := by
  constructor <;> decide

/-- Claim C6 amended: three probe attempts are scheduled; when no attempt
observes the dynamics world uninitialised (with rigidbody system and mesh
present), at most those three attempts ever run; the first successful probe
sets `physicsReady` and enables collision; a failed probe raycast does not
reschedule; but an attempt that finds the dynamics world uninitialised
reschedules itself after 100 ms, so when the world never initialises the
number of executed attempts grows without bound. -/
theorem C6_physics_probe_retry_amended :
    (∀ envs : Nat → PhysEnv,
      (∀ n, (envs n).rigidbody = false ∨ (envs n).mesh = false ∨
        (envs n).world = true) →
      ∀ n, (runPhys envs n afterSetup).invoked ≤ 3)
  ∧ (∀ (env : PhysEnv) (s : PhysState), s.physicsReady = false →
      env.rigidbody = true → env.mesh = true → env.world = true →
      env.probeOk = true →
      testPhysicsReady env s =
        { s with physicsReady := true, collisionEnabled := true })
  ∧ (∀ (env : PhysEnv) (s : PhysState), s.physicsReady = false →
      env.rigidbody = true → env.mesh = true → env.world = true →
      env.probeOk = false → testPhysicsReady env s = s)
  ∧ (∀ (env : PhysEnv) (s : PhysState), s.physicsReady = false →
      env.rigidbody = true → env.mesh = true → env.world = false →
      testPhysicsReady env s = { s with pending := s.pending + 1 })
  ∧ (∀ n, (runPhys (fun _ => envNoWorld) n afterSetup).invoked = n) := by
  refine ⟨?_, ?_, ?_, ?_, ?_⟩
  · intro envs hg n
    have h := runPhys_bound envs hg n afterSetup (by decide)
    omega
  · intro env s h1 h2 h3 h4 h5
    simp [testPhysicsReady, h1, h2, h3, h4, h5]
  · intro env s h1 h2 h3 h4 h5
    simp [testPhysicsReady, h1, h2, h3, h4, h5]
  · intro env s h1 h2 h3 h4
    simp [testPhysicsReady, h1, h2, h3, h4]
  · intro n
    have h := runPhys_noWorld n 0
    have ha : afterSetup =
        ({ physicsReady := false, collisionEnabled := false,
           pending := 3, invoked := 0 } : PhysState) := rfl
    rw [ha, h]
    simp

/-- Witness for the amended C6: a run in an environment where every attempt
finds the world ready stays within the three scheduled attempts. -/
theorem C6_physics_probe_retry_amended_witness :
    (runPhys (fun _ =>
      ({ rigidbody := true, mesh := true, world := true, probeOk := true } :
        PhysEnv)) 5 afterSetup).invoked ≤ 3 :=
  C6_physics_probe_retry_amended.1 _ (fun _ => Or.inr (Or.inr rfl)) 5

/-! ## Claim C4: arbitration order in the navigation loop -/

/-- Claim C4: in walk mode the arbiters are consulted in the fixed order
mesh collision, boundary (wall) collision, portal collision, short-circuiting
at the first rejection (later arbiters are not consulted); a rejected
candidate leaves the camera exactly at the old position (and zeroes the
smoothed joystick state); when every arbiter accepts, the candidate commits;
in fly mode the arbitration block is bypassed entirely. -/
theorem C4_arbitration_order (flyMode wallOn portalPresent : Bool)
    (cs : CollisionState) (ray : Vec3 → Vec3 → RayResult)
    (walls : List Segment) (pb : Vec3 → Vec3 → Bool)
    (currentPos newPos : Vec3) :
    (flyMode = true →
      updateFrame flyMode wallOn portalPresent cs ray walls pb currentPos newPos =
        { cameraPos := newPos, accepted := true, smoothReset := false
          portalUpdated := portalPresent
          portalCheckPos := if portalPresent then some newPos else none
          consulted := [] })
  ∧ (flyMode = false → checkCollision cs ray currentPos newPos = true →
      updateFrame flyMode wallOn portalPresent cs ray walls pb currentPos newPos =
        { cameraPos := currentPos, accepted := false, smoothReset := true
          portalUpdated := false, portalCheckPos := none
          consulted := [Arbiter.mesh] })
  ∧ (flyMode = false → checkCollision cs ray currentPos newPos = false →
      wallOn = true → checkWallCollision walls currentPos newPos = true →
      updateFrame flyMode wallOn portalPresent cs ray walls pb currentPos newPos =
        { cameraPos := currentPos, accepted := false, smoothReset := true
          portalUpdated := false, portalCheckPos := none
          consulted := [Arbiter.mesh, Arbiter.wall] })
  ∧ (flyMode = false → checkCollision cs ray currentPos newPos = false →
      (wallOn && checkWallCollision walls currentPos newPos) = false →
      portalPresent = true → pb currentPos newPos = true →
      updateFrame flyMode wallOn portalPresent cs ray walls pb currentPos newPos =
        { cameraPos := currentPos, accepted := false, smoothReset := true
          portalUpdated := false, portalCheckPos := none
          consulted := [Arbiter.mesh] ++ (if wallOn then [Arbiter.wall] else [])
            ++ [Arbiter.portal] })
  ∧ (flyMode = false → checkCollision cs ray currentPos newPos = false →
      (wallOn && checkWallCollision walls currentPos newPos) = false →
      (portalPresent && pb currentPos newPos) = false →
      (updateFrame flyMode wallOn portalPresent cs ray walls pb
          currentPos newPos).cameraPos = newPos ∧
      (updateFrame flyMode wallOn portalPresent cs ray walls pb
          currentPos newPos).accepted = true) := by
  refine ⟨?_, ?_, ?_, ?_, ?_⟩
  · intro h1
    subst h1
    simp [updateFrame]
  · intro h1 h2
    subst h1
    simp [updateFrame, h2]
  · intro h1 h2 h3 h4
    subst h1
    subst h3
    simp [updateFrame, h2, h4]
  · intro h1 h2 h3 h4 h5
    subst h1
    subst h4
    simp [updateFrame, h2, h3, h5]
  · intro h1 h2 h3 h4
    subst h1
    simp [updateFrame, h2, h3, h4]

/-- Witness for C4: the fly-mode conjunct at concrete inputs — the camera
commits to the candidate with no arbiter consulted. -/
theorem C4_arbitration_order_witness :
    updateFrame true true true csReady rayHitOrigin [] noPortalBlock
        vOrigin vOneX =
      { cameraPos := vOneX, accepted := true, smoothReset := false
        portalUpdated := true, portalCheckPos := some vOneX
        consulted := [] } := by
  have h := (C4_arbitration_order true true true csReady rayHitOrigin []
    noPortalBlock vOrigin vOneX).1 rfl
  simpa using h

/-! ## Claim C7: portal update on rejected frames -/

/-- Counterexample to C7: a concrete walk-mode frame with a portal system
present in which the mesh arbiter rejects the candidate: the early return
skips `portalSystem.update` and `portalSystem.checkCollision`, so the
continuous portal state is not updated this frame, contradicting "updated
every frame regardless of whether the move was accepted or rejected". -/
theorem C7_portal_update_counterexample :
    (updateFrame false true true csReady rayHitOrigin [] noPortalBlock
        vOrigin vOneX).portalUpdated = false
    ∧ (updateFrame false true true csReady rayHitOrigin [] noPortalBlock
        vOrigin vOneX).accepted = false := by
  have hc : checkCollision csReady rayHitOrigin vOrigin vOneX = true := by
    simp only [checkCollision, csReady, rayHitOrigin, dist2, vOrigin, vOneX]
    norm_num
  constructor <;> simp [updateFrame, hc]

/-- Claim C7 amended: the portal system's continuous update (with the
committed camera position) runs exactly on the frames whose candidate move is
committed — fly mode, or every arbiter accepting — and is skipped on a frame
whose candidate was rejected. -/
theorem C7_portal_update_amended (flyMode wallOn portalPresent : Bool)
    (cs : CollisionState) (ray : Vec3 → Vec3 → RayResult)
    (walls : List Segment) (pb : Vec3 → Vec3 → Bool)
    (currentPos newPos : Vec3) :
    (updateFrame flyMode wallOn portalPresent cs ray walls pb currentPos
        newPos).portalUpdated =
      (portalPresent &&
        (updateFrame flyMode wallOn portalPresent cs ray walls pb currentPos
          newPos).accepted)
  ∧ ((updateFrame flyMode wallOn portalPresent cs ray walls pb currentPos
        newPos).portalUpdated = true →
      (updateFrame flyMode wallOn portalPresent cs ray walls pb currentPos
        newPos).portalCheckPos = some newPos ∧
      (updateFrame flyMode wallOn portalPresent cs ray walls pb currentPos
        newPos).cameraPos = newPos) := by
  constructor
  · unfold updateFrame
    split_ifs <;> simp_all
  · intro h
    unfold updateFrame at h ⊢
    split_ifs at h ⊢ <;> simp_all

/-- Witness for the amended C7: on the concrete rejected frame of the
counterexample scenario, the portal update equals portal-present AND
accepted (hence false). -/
theorem C7_portal_update_amended_witness :
    (updateFrame false true true csReady rayHitOrigin [] noPortalBlock
        vOrigin vOneX).portalUpdated =
      (true &&
        (updateFrame false true true csReady rayHitOrigin [] noPortalBlock
          vOrigin vOneX).accepted) :=
  (C7_portal_update_amended false true true csReady rayHitOrigin []
    noPortalBlock vOrigin vOneX).1

/-! ## Claim C2: idempotent, at-most-once loading -/

theorem find_id_isNone_false (ts : List TimeEntry) (tid : String)
    (hknown : tid ∈ idsOf ts) :
    (ts.find? (fun t => t.id = tid)).isNone = false := by
  obtain ⟨t, ht, hts⟩ := List.mem_map.mp hknown
  cases hf : ts.find? (fun t => decide (t.id = tid)) with
  | some _ => rfl
  | none =>
      have h := List.find?_eq_none.mp hf t ht
      simp [hts] at h

/-- Claim C2: `loadTimeState` is idempotent with at-most-once loading: a
`loaded` variant returns the existing handle immediately with no state change
and no new request; a `loading` variant makes the caller wait with no second
request; and from `unloaded`, the first call issues exactly one request to
the asset loader while a second call arriving before completion waits, both
callers receiving the same registered handle once the load completes. -/
theorem C2_loadVariant_idempotent (s : TTState) (tid : String)
    (hknown : tid ∈ idsOf s.times) :
    (lookupLS s tid = .loaded →
      loadStateSync s tid = (s, .alreadyLoaded (alookup s.splatEntities tid)))
  ∧ (lookupLS s tid = .loading → loadStateSync s tid = (s, .waitInflight))
  ∧ (lookupLS s tid = .unloaded →
      (loadStateSync s tid).2 = .issuedLoad
      ∧ (loadStateSync s tid).1.loadRequests = s.loadRequests ++ [tid]
      ∧ loadStateSync (loadStateSync s tid).1 tid =
          ((loadStateSync s tid).1, .waitInflight)
      ∧ resolvePoll (loadReady (loadStateSync s tid).1 tid) tid =
          some (alookup (loadReady (loadStateSync s tid).1 tid).splatEntities tid)
      ∧ (alookup (loadReady (loadStateSync s tid).1 tid).splatEntities
          tid).isSome = true) := by
  have hfind := find_id_isNone_false s.times tid hknown
  refine ⟨?_, ?_, ?_⟩
  · intro h
    simp [loadStateSync, hfind, h]
  · intro h
    simp [loadStateSync, hfind, h]
  · intro h
    have heq : loadStateSync s tid =
        ({ s with loadingStates := aset s.loadingStates tid .loading,
                  loadRequests := s.loadRequests ++ [tid] }, .issuedLoad) := by
      simp [loadStateSync, hfind, h]
    refine ⟨?_, ?_, ?_, ?_, ?_⟩
    · rw [heq]
    · rw [heq]
    · rw [heq]
      simp [loadStateSync, hfind, lookupLS, alookup_aset]
    · rw [heq]
      simp [loadReady, resolvePoll, lookupLS, alookup_aset]
    · rw [heq]
      simp [loadReady, alookup_aset]

/-- Witness for C2: the unloaded-then-concurrent scenario at the
post-initialisation state with the secondary variant. -/
theorem C2_loadVariant_idempotent_witness :
    (loadStateSync (initState demoTimes "primary") "secondary").2 =
      LoadStart.issuedLoad :=
  ((C2_loadVariant_idempotent (initState demoTimes "primary") "secondary"
    (by decide)).2.2 (by decide)).1

/-! ## Claim C8: load failure leaves prior state intact -/

/-- Claim C8: the `asset.on('error')` handler of `loadTimeState` marks the
variant `error` and rejects the caller's request with the cause, while
leaving every other piece of state intact: the active id, every registered
entity (hence the previously active variant's handle and its visibility
flag), the variant list, every other variant's load state — so the
exactly-one-active-variant designation is unchanged. -/
theorem C8_load_error_leaves_state (s : TTState) (tid errCause : String) :
    ((assetErrorHandler s tid errCause).2 = Except.error errCause)
  ∧ lookupLS (assetErrorHandler s tid errCause).1 tid = .error
  ∧ (assetErrorHandler s tid errCause).1.activeTimeId = s.activeTimeId
  ∧ (assetErrorHandler s tid errCause).1.splatEntities = s.splatEntities
  ∧ (assetErrorHandler s tid errCause).1.times = s.times
  ∧ (∀ x, x ≠ tid →
      alookup (assetErrorHandler s tid errCause).1.loadingStates x =
        alookup s.loadingStates x)
  ∧ ((assetErrorHandler s tid errCause).1.times.countP
        (fun t => decide
          (t.id = (assetErrorHandler s tid errCause).1.activeTimeId)) =
      s.times.countP (fun t => decide (t.id = s.activeTimeId))) := by
  refine ⟨rfl, ?_, rfl, rfl, rfl, ?_, rfl⟩
  · simp [assetErrorHandler, lookupLS, alookup_aset]
  · intro x hx
    simp [assetErrorHandler, alookup_aset, hx]

/-- Witness for C8: at a concrete failing load of the secondary variant, the
primary variant's load state is untouched. -/
theorem C8_load_error_leaves_state_witness :
    alookup (assetErrorHandler errState "secondary" "boom").1.loadingStates
        "primary" =
      alookup errState.loadingStates "primary" :=
  (C8_load_error_leaves_state errState "secondary" "boom").2.2.2.2.2.1
    "primary" (by decide)

/-! ## Invariants of the switch-protocol trace system -/

theorem get?_append_sing {α : Type} {l : List α} {q p : α} {i : Nat}
    (h : (l ++ [q]).get? i = some p) : l.get? i = some p ∨ p = q := by
  rcases Nat.lt_or_ge i l.length with hi | hi
  · left; rwa [List.get?_append hi] at h
  · rw [List.get?_append_right hi] at h
    right
    rcases hk : i - l.length with _ | k
    · rw [hk] at h
      injection h with h
      exact h.symm
    · rw [hk] at h
      simp at h

theorem get?_set_self {α : Type} {l : List α} {i : Nat} {a : α} (b : α)
    (h : l.get? i = some a) : (l.set i b).get? i = some b := by
  rw [List.get?_set_eq, h]
  rfl

theorem get?_set_other {α : Type} (b : α) {l : List α} {i j : Nat}
    (h : i ≠ j) : (l.set i b).get? j = l.get? j :=
  List.get?_set_ne b l h

theorem lookupLS_isSome {s : TTState} {tid : String}
    (h : lookupLS s tid ≠ .unloaded) :
    (alookup s.loadingStates tid).isSome = true := by
  unfold lookupLS at h
  cases hl : alookup s.loadingStates tid with
  | some _ => rfl
  | none => rw [hl] at h; simp at h

/-- Facts about the synchronous segment of `loadTimeState` needed by the
invariant: it only touches `loadingStates` and `loadRequests`, any new
`loadingStates` key is the requested id, and a request is only issued for a
declared id. -/
theorem loadStateSync_facts (s : TTState) (tid : String) :
    (loadStateSync s tid).1.times = s.times
    ∧ (loadStateSync s tid).1.activeTimeId = s.activeTimeId
    ∧ (loadStateSync s tid).1.splatEntities = s.splatEntities
    ∧ (loadStateSync s tid).1.switchLock = s.switchLock
    ∧ (∀ x, (alookup (loadStateSync s tid).1.loadingStates x).isSome = true →
        (x = tid ∧ (loadStateSync s tid).2 = .issuedLoad) ∨
          (alookup s.loadingStates x).isSome = true)
    ∧ ((loadStateSync s tid).2 = .issuedLoad → tid ∈ idsOf s.times) := by
  unfold loadStateSync
  split
  next hf => exact ⟨rfl, rfl, rfl, rfl, fun x hx => Or.inr hx, by intro h; cases h⟩
  next hf =>
    split
    next => exact ⟨rfl, rfl, rfl, rfl, fun x hx => Or.inr hx, by intro h; cases h⟩
    next =>
      split
      next => exact ⟨rfl, rfl, rfl, rfl, fun x hx => Or.inr hx, by intro h; cases h⟩
      next =>
        refine ⟨rfl, rfl, rfl, rfl, ?_, ?_⟩
        · intro x hx
          simp only [alookup_aset] at hx
          by_cases hxt : x = tid
          · exact Or.inl ⟨hxt, rfl⟩
          · rw [if_neg hxt] at hx
            exact Or.inr hx
        · intro _
          cases hfind : s.times.find? (fun t => decide (t.id = tid)) with
          | none => rw [hfind] at hf; simp at hf
          | some t =>
              have ht := List.find?_some hfind
              have htm := List.mem_of_find?_eq_some hfind
              simp only [decide_eq_true_eq] at ht
              exact ht ▸ List.mem_map_of_mem (fun t => t.id) htm

/-- `setEnabled` only rewrites one existing entity's flag: every other field
is untouched and the set of registered entities is unchanged. -/
theorem setEnabled_facts (s : TTState) (tid : String) (b : Bool) :
    (setEnabled s tid b).times = s.times
    ∧ (setEnabled s tid b).activeTimeId = s.activeTimeId
    ∧ (setEnabled s tid b).loadingStates = s.loadingStates
    ∧ (setEnabled s tid b).switchLock = s.switchLock
    ∧ (∀ x, (alookup (setEnabled s tid b).splatEntities x).isSome =
        (alookup s.splatEntities x).isSome) := by
  unfold setEnabled
  cases he : alookup s.splatEntities tid with
  | none => exact ⟨rfl, rfl, rfl, rfl, fun x => rfl⟩
  | some e =>
    refine ⟨rfl, rfl, rfl, rfl, ?_⟩
    intro x
    simp only [alookup_aset]
    by_cases hxt : x = tid
    · subst hxt
      rw [if_pos rfl, he]
      rfl
    · rw [if_neg hxt]

/-- Invariant of the switch-protocol trace system.  `mutex` is the mutual
exclusion of in-flight switch runs; `lockOn` ties any in-flight run to the
lock bit; the remaining components say that load states, entities and the
active id only ever mention declared variant ids, that the variant list is
immutable, and that a run past its entity check refers to a registered
entity. -/
structure Inv (times0 : List TimeEntry) (cfg : Cfg) : Prop where
  mutex : ∀ i j pi pj, i ≠ j → cfg.procs.get? i = some pi →
    cfg.procs.get? j = some pj → holdsLockPhase pi = true →
    holdsLockPhase pj = true → False
  lockOn : ∀ i p, cfg.procs.get? i = some p → holdsLockPhase p = true →
    cfg.state.switchLock = true
  lsKnown : ∀ x, (alookup cfg.state.loadingStates x).isSome = true →
    x ∈ idsOf cfg.state.times
  entKnown : ∀ x, (alookup cfg.state.splatEntities x).isSome = true →
    x ∈ idsOf cfg.state.times
  activeKnown : cfg.state.activeTimeId ∈ idsOf cfg.state.times
  timesEq : cfg.state.times = times0
  wfEnt : ∀ i tid fromId,
    cfg.procs.get? i = some (.waitingFrames tid fromId) →
    (alookup cfg.state.splatEntities tid).isSome = true
  fsEnt : ∀ i tid, cfg.procs.get? i = some (.finishSwap tid) →
    (alookup cfg.state.splatEntities tid).isSome = true

theorem invInit (times0 : List TimeEntry) (dflt : String)
    (hd : dflt ∈ idsOf times0) : Inv times0 (initCfg times0 dflt) := by
  refine ⟨?_, ?_, ?_, ?_, ?_, rfl, ?_, ?_⟩
  · intro i j pi pj _ hi
    simp [initCfg] at hi
  · intro i p hi
    simp [initCfg] at hi
  · intro x hx
    simp only [initCfg, initState] at hx ⊢
    rw [alookup] at hx
    split at hx
    next heq => exact heq ▸ hd
    next => rw [alookup] at hx; simp at hx
  · intro x hx
    simp only [initCfg, initState] at hx ⊢
    rw [alookup] at hx
    split at hx
    next heq => exact heq ▸ hd
    next => rw [alookup] at hx; simp at hx
  · exact hd
  · intro i tid fromId hi
    simp [initCfg] at hi
  · intro i tid hi
    simp [initCfg] at hi

/-- Invariant preservation for moves that leave the coroutine list unchanged
and do not touch the lock, the active id, or the variant list. -/
theorem invState {times0 : List TimeEntry} {s s' : TTState}
    {procs : List Phase} (hInv : Inv times0 ⟨s, procs⟩)
    (hTimes : s'.times = s.times)
    (hActive : s'.activeTimeId = s.activeTimeId)
    (hLock : s'.switchLock = s.switchLock)
    (hLS : ∀ x, (alookup s'.loadingStates x).isSome = true →
        x ∈ idsOf s.times ∨ (alookup s.loadingStates x).isSome = true)
    (hEnt : ∀ x, (alookup s'.splatEntities x).isSome = true →
        x ∈ idsOf s.times ∨ (alookup s.splatEntities x).isSome = true)
    (hEntMono : ∀ x, (alookup s.splatEntities x).isSome = true →
        (alookup s'.splatEntities x).isSome = true) :
    Inv times0 ⟨s', procs⟩ := by
  refine ⟨?_, ?_, ?_, ?_, ?_, ?_, ?_, ?_⟩
  · exact hInv.mutex
  · intro i p hi hp
    rw [hLock]
    exact hInv.lockOn i p hi hp
  · intro x hx
    rw [hTimes]
    rcases hLS x hx with h | h
    · exact h
    · exact hInv.lsKnown x h
  · intro x hx
    rw [hTimes]
    rcases hEnt x hx with h | h
    · exact h
    · exact hInv.entKnown x h
  · rw [hTimes, hActive]
    exact hInv.activeKnown
  · exact hTimes.trans hInv.timesEq
  · intro i tid fromId hi
    exact hEntMono tid (hInv.wfEnt i tid fromId hi)
  · intro i tid hi
    exact hEntMono tid (hInv.fsEnt i tid hi)

/-- Invariant preservation for one coroutine step (`Move.run`), given the
facts the transition establishes. -/
theorem invUpdate {times0 : List TimeEntry} {s s' : TTState}
    {procs : List Phase} {i : Nat} {p p' : Phase}
    (hInv : Inv times0 ⟨s, procs⟩)
    (hp : procs.get? i = some p)
    (hTimes : s'.times = s.times)
    (hActive : s'.activeTimeId ∈ idsOf s.times)
    (hLS : ∀ x, (alookup s'.loadingStates x).isSome = true →
        x ∈ idsOf s.times ∨ (alookup s.loadingStates x).isSome = true)
    (hEnt : ∀ x, (alookup s'.splatEntities x).isSome = true →
        x ∈ idsOf s.times ∨ (alookup s.splatEntities x).isSome = true)
    (hEntMono : ∀ x, (alookup s.splatEntities x).isSome = true →
        (alookup s'.splatEntities x).isSome = true)
    (hLockNew : holdsLockPhase p' = true → s'.switchLock = true)
    (hLockKeep : ∀ j q, j ≠ i → procs.get? j = some q →
        holdsLockPhase q = true → s'.switchLock = true)
    (hMutexNew : holdsLockPhase p' = true → holdsLockPhase p = true ∨
        (∀ j q, j ≠ i → procs.get? j = some q → holdsLockPhase q = false))
    (hWfNew : ∀ tid fromId, p' = .waitingFrames tid fromId →
        (alookup s'.splatEntities tid).isSome = true)
    (hFsNew : ∀ tid, p' = .finishSwap tid →
        (alookup s'.splatEntities tid).isSome = true) :
    Inv times0 ⟨s', procs.set i p'⟩ := by
  refine ⟨?_, ?_, ?_, ?_, ?_, ?_, ?_, ?_⟩
  · intro i' j' pi pj hne hi hj hhi hhj
    by_cases hii : i' = i
    · rw [hii, get?_set_self p' hp] at hi
      injection hi with hi
      rw [← hi] at hhi
      have hjne : j' ≠ i := fun h => hne (hii.trans h.symm)
      rw [get?_set_other p' (fun h => hjne h.symm)] at hj
      rcases hMutexNew hhi with hcase | hcase
      · exact hInv.mutex i j' p pj (fun h => hjne h.symm) hp hj hcase hhj
      · rw [hcase j' pj hjne hj] at hhj
        cases hhj
    · by_cases hjj : j' = i
      · rw [hjj, get?_set_self p' hp] at hj
        injection hj with hj
        rw [← hj] at hhj
        rw [get?_set_other p' (fun h => hii h.symm)] at hi
        rcases hMutexNew hhj with hcase | hcase
        · exact hInv.mutex i i' p pi (fun h => hii h.symm) hp hi hcase hhi
        · rw [hcase i' pi hii hi] at hhi
          cases hhi
      · rw [get?_set_other p' (fun h => hii h.symm)] at hi
        rw [get?_set_other p' (fun h => hjj h.symm)] at hj
        exact hInv.mutex i' j' pi pj hne hi hj hhi hhj
  · intro j q hj hq
    by_cases hjj : j = i
    · rw [hjj, get?_set_self p' hp] at hj
      injection hj with hj
      rw [← hj] at hq
      exact hLockNew hq
    · rw [get?_set_other p' (fun h => hjj h.symm)] at hj
      exact hLockKeep j q hjj hj hq
  · intro x hx
    rw [hTimes]
    rcases hLS x hx with h | h
    · exact h
    · exact hInv.lsKnown x h
  · intro x hx
    rw [hTimes]
    rcases hEnt x hx with h | h
    · exact h
    · exact hInv.entKnown x h
  · rw [hTimes]
    exact hActive
  · exact hTimes.trans hInv.timesEq
  · intro j tid fromId hj
    by_cases hjj : j = i
    · rw [hjj, get?_set_self p' hp] at hj
      injection hj with hj
      exact hWfNew tid fromId hj
    · rw [get?_set_other p' (fun h => hjj h.symm)] at hj
      exact hEntMono tid (hInv.wfEnt j tid fromId hj)
  · intro j tid hj
    by_cases hjj : j = i
    · rw [hjj, get?_set_self p' hp] at hj
      injection hj with hj
      exact hFsNew tid hj
    · rw [get?_set_other p' (fun h => hjj h.symm)] at hj
      exact hEntMono tid (hInv.fsEnt j tid hj)

/-- Every scheduler move preserves the invariant. -/
theorem invStep {times0 : List TimeEntry} {cfg cfg' : Cfg} {m : Move}
    (hInv : Inv times0 cfg) (h : applyMove cfg m = some cfg') :
    Inv times0 cfg' := by
  obtain ⟨s, procs⟩ := cfg
  cases m with
  | spawn tid =>
    simp only [applyMove, Option.some.injEq] at h
    subst h
    refine ⟨?_, ?_, hInv.lsKnown, hInv.entKnown, hInv.activeKnown,
      hInv.timesEq, ?_, ?_⟩
    · intro i j pi pj hne hi hj hhi hhj
      rcases get?_append_sing hi with hi' | rfl
      · rcases get?_append_sing hj with hj' | rfl
        · exact hInv.mutex i j pi pj hne hi' hj' hhi hhj
        · simp [holdsLockPhase] at hhj
      · simp [holdsLockPhase] at hhi
    · intro i p hi hhp
      rcases get?_append_sing hi with hi' | rfl
      · exact hInv.lockOn i p hi' hhp
      · simp [holdsLockPhase] at hhp
    · intro i tid2 fromId hi
      rcases get?_append_sing hi with hi' | heq
      · exact hInv.wfEnt i tid2 fromId hi'
      · simp at heq
    · intro i tid2 hi
      rcases get?_append_sing hi with hi' | heq
      · exact hInv.fsEnt i tid2 hi'
      · simp at heq
  | assetReady tid =>
    simp only [applyMove] at h
    split at h
    next hload =>
      simp only [Option.some.injEq] at h
      subst h
      refine invState hInv rfl rfl rfl ?_ ?_ ?_
      · intro x hx
        simp only [loadReady, alookup_aset] at hx
        by_cases hxt : x = tid
        · subst hxt
          refine Or.inr (lookupLS_isSome ?_)
          rw [hload]
          intro hcon
          cases hcon
        · rw [if_neg hxt] at hx
          exact Or.inr hx
      · intro x hx
        simp only [loadReady, alookup_aset] at hx
        by_cases hxt : x = tid
        · subst hxt
          refine Or.inl (hInv.lsKnown x (lookupLS_isSome ?_))
          rw [hload]
          intro hcon
          cases hcon
        · rw [if_neg hxt] at hx
          exact Or.inr hx
      · intro x hx
        simp only [loadReady, alookup_aset]
        by_cases hxt : x = tid
        · rw [if_pos hxt]
          rfl
        · rw [if_neg hxt]
          exact hx
    next => simp at h
  | assetError tid =>
    simp only [applyMove] at h
    split at h
    next hload =>
      simp only [Option.some.injEq] at h
      subst h
      refine invState hInv rfl rfl rfl ?_ (fun x hx => Or.inr hx)
        (fun x hx => hx)
      intro x hx
      simp only [assetErrorHandler, alookup_aset] at hx
      by_cases hxt : x = tid
      · subst hxt
        refine Or.inr (lookupLS_isSome ?_)
        rw [hload]
        intro hcon
        cases hcon
      · rw [if_neg hxt] at hx
        exact Or.inr hx
    next => simp at h
  | run i c =>
    simp only [applyMove, Option.bind_eq_bind, Option.pure_def] at h
    revert h
    cases hp : procs.get? i with
    | none =>
      intro h
      simp at h
    | some p =>
      intro h
      simp only [Option.some_bind] at h
      revert h
      cases hs : (stepProc s p).get? c with
      | none =>
        intro h
        simp at h
      | some sp =>
        intro h
        obtain ⟨s', p'⟩ := sp
        simp only [Option.some_bind, Option.some.injEq] at h
        subst h
        have hmem : (s', p') ∈ stepProc s p := List.get?_mem hs
        clear hs
        cases p with
        | start tid =>
          by_cases h1 : tid = s.activeTimeId
          · simp only [stepProc, if_pos h1, List.mem_singleton,
              Prod.mk.injEq] at hmem
            obtain ⟨rfl, rfl⟩ := hmem
            exact invUpdate hInv hp rfl hInv.activeKnown
              (fun x hx => Or.inr hx) (fun x hx => Or.inr hx)
              (fun x hx => hx)
              (fun hq => by simp [holdsLockPhase] at hq)
              (fun j q _ hget hq => hInv.lockOn j q hget hq)
              (fun hq => by simp [holdsLockPhase] at hq)
              (fun t f hq => by simp at hq)
              (fun t hq => by simp at hq)
          · by_cases h2 : s.switchLock = true
            · simp only [stepProc, if_neg h1, h2, if_true,
                List.mem_singleton, Prod.mk.injEq] at hmem
              obtain ⟨rfl, rfl⟩ := hmem
              exact invUpdate hInv hp rfl hInv.activeKnown
                (fun x hx => Or.inr hx) (fun x hx => Or.inr hx)
                (fun x hx => hx)
                (fun hq => by simp [holdsLockPhase] at hq)
                (fun j q _ hget hq => hInv.lockOn j q hget hq)
                (fun hq => by simp [holdsLockPhase] at hq)
                (fun t f hq => by simp at hq)
                (fun t hq => by simp at hq)
            · rw [Bool.not_eq_true] at h2
              by_cases h3 : lookupLS { s with switchLock := true } tid = .loaded
              · simp only [stepProc, if_neg h1, h2, Bool.false_eq_true,
                  if_false, if_pos h3, List.mem_singleton,
                  Prod.mk.injEq] at hmem
                obtain ⟨rfl, rfl⟩ := hmem
                refine invUpdate hInv hp rfl hInv.activeKnown
                  (fun x hx => Or.inr hx) (fun x hx => Or.inr hx)
                  (fun x hx => hx)
                  (fun _ => rfl)
                  (fun j q _ hget hq => rfl)
                  (fun _ => Or.inr (fun j q _ hget => ?_))
                  (fun t f hq => by simp at hq)
                  (fun t hq => by simp at hq)
                cases hq : holdsLockPhase q with
                | false => rfl
                | true =>
                  rw [hInv.lockOn j q hget hq] at h2
                  cases h2
              · rcases hsync : loadStateSync { s with switchLock := true } tid
                  with ⟨s2, r⟩
                have hfacts := loadStateSync_facts
                  { s with switchLock := true } tid
                rw [hsync] at hfacts
                obtain ⟨hft, hfa, hfe, hfl, hfls, hfk⟩ := hfacts
                have hnoHolder : ∀ j q, j ≠ i → procs.get? j = some q →
                    holdsLockPhase q = false := by
                  intro j q _ hget
                  cases hq : holdsLockPhase q with
                  | false => rfl
                  | true =>
                    rw [hInv.lockOn j q hget hq] at h2
                    cases h2
                have hcommon : ∀ (ph : Phase),
                    (∀ t f, ph = .waitingFrames t f → False) →
                    (∀ t, ph = .finishSwap t → False) →
                    Inv times0 ⟨s2, procs.set i ph⟩ := by
                  intro ph hwf hfs
                  refine invUpdate hInv hp hft (hfa ▸ hInv.activeKnown)
                    ?_ (fun x hx => Or.inr (hfe ▸ hx))
                    (fun x hx => hfe ▸ hx)
                    (fun _ => by rw [hfl])
                    (fun j q _ hget hq => by rw [hfl])
                    (fun _ => Or.inr hnoHolder)
                    (fun t f hq => absurd hq (fun hq => hwf t f hq))
                    (fun t hq => absurd hq (fun hq => hfs t hq))
                  intro x hx
                  rcases hfls x hx with ⟨rfl, hiss⟩ | hold
                  · exact Or.inl (hfk hiss)
                  · exact Or.inr hold
                cases r with
                | unknownId =>
                  simp only [stepProc, if_neg h1, h2, Bool.false_eq_true,
                    if_false, if_neg h3, hsync, List.mem_singleton,
                    Prod.mk.injEq] at hmem
                  obtain ⟨rfl, rfl⟩ := hmem
                  exact hcommon _ (fun t f hq => by simp at hq)
                    (fun t hq => by simp at hq)
                | alreadyLoaded e =>
                  simp only [stepProc, if_neg h1, h2, Bool.false_eq_true,
                    if_false, if_neg h3, hsync, List.mem_singleton,
                    Prod.mk.injEq] at hmem
                  obtain ⟨rfl, rfl⟩ := hmem
                  exact hcommon _ (fun t f hq => by simp at hq)
                    (fun t hq => by simp at hq)
                | waitInflight =>
                  simp only [stepProc, if_neg h1, h2, Bool.false_eq_true,
                    if_false, if_neg h3, hsync, List.mem_singleton,
                    Prod.mk.injEq] at hmem
                  obtain ⟨rfl, rfl⟩ := hmem
                  exact hcommon _ (fun t f hq => by simp at hq)
                    (fun t hq => by simp at hq)
                | issuedLoad =>
                  simp only [stepProc, if_neg h1, h2, Bool.false_eq_true,
                    if_false, if_neg h3, hsync, List.mem_singleton,
                    Prod.mk.injEq] at hmem
                  obtain ⟨rfl, rfl⟩ := hmem
                  exact hcommon _ (fun t f hq => by simp at hq)
                    (fun t hq => by simp at hq)
        | awaitingLoad tid =>
          have hholds : holdsLockPhase (Phase.awaitingLoad tid) = true := rfl
          cases hls : lookupLS s tid with
          | loaded =>
            simp only [stepProc, hls, List.mem_singleton,
              Prod.mk.injEq] at hmem
            obtain ⟨rfl, rfl⟩ := hmem
            exact invUpdate hInv hp rfl hInv.activeKnown
              (fun x hx => Or.inr hx) (fun x hx => Or.inr hx)
              (fun x hx => hx)
              (fun _ => hInv.lockOn i _ hp hholds)
              (fun j q _ hget hq => hInv.lockOn j q hget hq)
              (fun _ => Or.inl hholds)
              (fun t f hq => by simp at hq)
              (fun t hq => by simp at hq)
          | error =>
            simp only [stepProc, hls, List.mem_singleton,
              Prod.mk.injEq] at hmem
            obtain ⟨rfl, rfl⟩ := hmem
            exact invUpdate hInv hp rfl hInv.activeKnown
              (fun x hx => Or.inr hx) (fun x hx => Or.inr hx)
              (fun x hx => hx)
              (fun hq => by simp [holdsLockPhase] at hq)
              (fun j q _ hget hq => hInv.lockOn j q hget hq)
              (fun hq => by simp [holdsLockPhase] at hq)
              (fun t f hq => by simp at hq)
              (fun t hq => by simp at hq)
          | loading => simp only [stepProc, hls, List.not_mem_nil] at hmem
          | unloaded => simp only [stepProc, hls, List.not_mem_nil] at hmem
        | awaitingPoll tid =>
          have hholds : holdsLockPhase (Phase.awaitingPoll tid) = true := rfl
          cases hls : lookupLS s tid with
          | loaded =>
            simp only [stepProc, hls, List.mem_singleton,
              Prod.mk.injEq] at hmem
            obtain ⟨rfl, rfl⟩ := hmem
            exact invUpdate hInv hp rfl hInv.activeKnown
              (fun x hx => Or.inr hx) (fun x hx => Or.inr hx)
              (fun x hx => hx)
              (fun _ => hInv.lockOn i _ hp hholds)
              (fun j q _ hget hq => hInv.lockOn j q hget hq)
              (fun _ => Or.inl hholds)
              (fun t f hq => by simp at hq)
              (fun t hq => by simp at hq)
          | error => simp only [stepProc, hls, List.not_mem_nil] at hmem
          | loading => simp only [stepProc, hls, List.not_mem_nil] at hmem
          | unloaded => simp only [stepProc, hls, List.not_mem_nil] at hmem
        | resumeLoad tid =>
          have hholds : holdsLockPhase (Phase.resumeLoad tid) = true := rfl
          cases ha : alookup s.splatEntities s.activeTimeId with
          | none =>
            simp only [stepProc, ha, List.mem_singleton,
              Prod.mk.injEq] at hmem
            obtain ⟨rfl, rfl⟩ := hmem
            exact invUpdate hInv hp rfl hInv.activeKnown
              (fun x hx => Or.inr hx) (fun x hx => Or.inr hx)
              (fun x hx => hx)
              (fun hq => by simp [holdsLockPhase] at hq)
              (fun j q hne hget hq =>
                (hInv.mutex j i q _ hne hget hp hq hholds).elim)
              (fun hq => by simp [holdsLockPhase] at hq)
              (fun t f hq => by simp at hq)
              (fun t hq => by simp at hq)
          | some ea =>
            cases hb : alookup s.splatEntities tid with
            | none =>
              simp only [stepProc, ha, hb, List.mem_singleton,
                Prod.mk.injEq] at hmem
              obtain ⟨rfl, rfl⟩ := hmem
              exact invUpdate hInv hp rfl hInv.activeKnown
                (fun x hx => Or.inr hx) (fun x hx => Or.inr hx)
                (fun x hx => hx)
                (fun hq => by simp [holdsLockPhase] at hq)
                (fun j q hne hget hq =>
                  (hInv.mutex j i q _ hne hget hp hq hholds).elim)
                (fun hq => by simp [holdsLockPhase] at hq)
                (fun t f hq => by simp at hq)
                (fun t hq => by simp at hq)
            | some eb =>
              simp only [stepProc, ha, hb, List.mem_singleton,
                Prod.mk.injEq] at hmem
              obtain ⟨rfl, rfl⟩ := hmem
              obtain ⟨hst, hsa, hsl, hsw, hse⟩ := setEnabled_facts s tid true
              refine invUpdate hInv hp hst (hsa ▸ hInv.activeKnown)
                (fun x hx => Or.inr (hsl ▸ hx))
                (fun x hx => Or.inr (by rw [← hse x]; exact hx))
                (fun x hx => by rw [hse x]; exact hx)
                (fun _ => by rw [hsw]; exact hInv.lockOn i _ hp hholds)
                (fun j q _ hget hq => by
                  rw [hsw]; exact hInv.lockOn j q hget hq)
                (fun _ => Or.inl hholds)
                ?_
                (fun t hq => by simp at hq)
              intro t f hq
              injection hq with hq1 hq2
              subst hq1
              rw [hse tid, hb]
              rfl
        | waitingFrames tid fromId =>
          have hholds :
              holdsLockPhase (Phase.waitingFrames tid fromId) = true := rfl
          simp only [stepProc, List.mem_singleton, Prod.mk.injEq] at hmem
          obtain ⟨rfl, rfl⟩ := hmem
          obtain ⟨hst, hsa, hsl, hsw, hse⟩ := setEnabled_facts s fromId false
          refine invUpdate hInv hp hst (hsa ▸ hInv.activeKnown)
            (fun x hx => Or.inr (hsl ▸ hx))
            (fun x hx => Or.inr (by rw [← hse x]; exact hx))
            (fun x hx => by rw [hse x]; exact hx)
            (fun _ => by rw [hsw]; exact hInv.lockOn i _ hp hholds)
            (fun j q _ hget hq => by
              rw [hsw]; exact hInv.lockOn j q hget hq)
            (fun _ => Or.inl hholds)
            (fun t f hq => by simp at hq)
            ?_
          intro t hq
          injection hq with hq1
          subst hq1
          rw [hse tid]
          exact hInv.wfEnt i tid fromId hp
        | finishSwap tid =>
          have hholds : holdsLockPhase (Phase.finishSwap tid) = true := rfl
          simp only [stepProc, List.mem_singleton, Prod.mk.injEq] at hmem
          obtain ⟨rfl, rfl⟩ := hmem
          exact invUpdate hInv hp rfl
            (hInv.entKnown tid (hInv.fsEnt i tid hp))
            (fun x hx => Or.inr hx) (fun x hx => Or.inr hx)
            (fun x hx => hx)
            (fun _ => hInv.lockOn i _ hp hholds)
            (fun j q _ hget hq => hInv.lockOn j q hget hq)
            (fun _ => Or.inl hholds)
            (fun t f hq => by simp at hq)
            (fun t hq => by simp at hq)
        | cooldown =>
          have hholds : holdsLockPhase Phase.cooldown = true := rfl
          simp only [stepProc, List.mem_singleton, Prod.mk.injEq] at hmem
          obtain ⟨rfl, rfl⟩ := hmem
          exact invUpdate hInv hp rfl hInv.activeKnown
            (fun x hx => Or.inr hx) (fun x hx => Or.inr hx)
            (fun x hx => hx)
            (fun hq => by simp [holdsLockPhase] at hq)
            (fun j q hne hget hq =>
              (hInv.mutex j i q _ hne hget hp hq hholds).elim)
            (fun hq => by simp [holdsLockPhase] at hq)
            (fun t f hq => by simp at hq)
            (fun t hq => by simp at hq)
        | done o => simp only [stepProc, List.not_mem_nil] at hmem

/-- The invariant holds in every configuration reachable from a
post-initialisation configuration. -/
theorem reachInv (times0 : List TimeEntry) (dflt : String)
    (hd : dflt ∈ idsOf times0) {cfg : Cfg}
    (hr : Reach (initCfg times0 dflt) cfg) : Inv times0 cfg := by
  induction hr with
  | refl => exact invInit times0 dflt hd
  | tail h1 h2 ih =>
    obtain ⟨m, hm⟩ := h2
    exact invStep ih hm

theorem countP_id_eq_one (l : List TimeEntry) (x : String)
    (hnd : (idsOf l).Nodup) (hx : x ∈ idsOf l) :
    l.countP (fun t => decide (t.id = x)) = 1 := by
  have h1 : l.countP (fun t => decide (t.id = x)) =
      (idsOf l).countP (fun y => decide (y = x)) := by
    rw [idsOf, List.countP_map]
    rfl
  have h2 : (idsOf l).countP (fun y => decide (y = x)) = (idsOf l).count x := by
    refine List.countP_congr ?_
    intro y _
    by_cases h : y = x <;> simp [h]
  rw [h1, h2]
  exact List.count_eq_one_of_mem hnd hx

/-! ## Claim C1: mutual exclusion and debounce of the switch protocol -/

/-- Claim C1: in every reachable configuration, no two `switchToTime` runs are
concurrently past the lock guard (so no two switch protocols overlap); a
`switchTo` request naming a non-active id that arrives while the transition
lock is held is dropped with no state change (logged and returned, not
queued); and in the concrete back-to-back double-request schedule exactly one
transition completes, the second request is dropped, and only one load request
reaches the asset loader. -/
theorem C1_switch_mutual_exclusion_and_debounce
    (times0 : List TimeEntry) (dflt : String) (hd : dflt ∈ idsOf times0)
    (cfg : Cfg) (hr : Reach (initCfg times0 dflt) cfg) :
    (∀ i j pi pj, i ≠ j → cfg.procs.get? i = some pi →
      cfg.procs.get? j = some pj → holdsLockPhase pi = true →
      holdsLockPhase pj = true → False)
  ∧ (∀ tid, cfg.state.switchLock = true → tid ≠ cfg.state.activeTimeId →
      stepProc cfg.state (.start tid) = [(cfg.state, .done .dropped)])
  ∧ twoCallScenarioCheck = true := by
  have hInv := reachInv times0 dflt hd hr
  refine ⟨hInv.mutex, ?_, by decide⟩
  intro tid hlock hne
  simp [stepProc, hne, hlock]

/-- Witness for C1: the theorem applied at the post-initialisation
configuration. -/
theorem C1_switch_mutual_exclusion_and_debounce_witness :
    twoCallScenarioCheck = true :=
  (C1_switch_mutual_exclusion_and_debounce demoTimes "primary" (by decide)
    (initCfg demoTimes "primary") Relation.ReflTransGen.refl).2.2

/-! ## Claim C9: exactly one active variant at every instant -/

/-- Claim C9: in every reachable configuration after initialisation — every
interleaving point of the switch protocol, including the
enable-target / wait-two-frames / disable-source handoff window — exactly one
declared TimeVariant carries the active designation (`activeTimeId` names
exactly one variant of the list; never zero, never two).  The spec's "active"
is the active-id designation of the data model; the visibility flags are a
separate notion that deliberately overlaps during the handoff. -/
theorem C9_exactly_one_active_variant
    (times0 : List TimeEntry) (dflt : String)
    (hnd : (idsOf times0).Nodup) (hd : dflt ∈ idsOf times0)
    (cfg : Cfg) (hr : Reach (initCfg times0 dflt) cfg) :
    cfg.state.times.countP
      (fun t => decide (t.id = cfg.state.activeTimeId)) = 1 := by
  have hInv := reachInv times0 dflt hd hr
  have h1 : (idsOf cfg.state.times).Nodup := by
    rw [hInv.timesEq]
    exact hnd
  have h2 : cfg.state.activeTimeId ∈ idsOf cfg.state.times :=
    hInv.activeKnown
  exact countP_id_eq_one _ _ h1 h2

/-- Witness for C9: the theorem applied at the post-initialisation
configuration of the two-variant config. -/
theorem C9_exactly_one_active_variant_witness :
    (initCfg demoTimes "primary").state.times.countP
      (fun t => decide
        (t.id = (initCfg demoTimes "primary").state.activeTimeId)) = 1 :=
  C9_exactly_one_active_variant demoTimes "primary" (by decide) (by decide)
    (initCfg demoTimes "primary") Relation.ReflTransGen.refl

/-! ## Claim C10: the lock leaks when the awaited load rejects -/

/-- Claim C10: when the load awaited inside `switchToTime` rejects, the
coroutine terminates with the state — in particular `switchLock` — untouched,
so the lock stays set; the only steps that turn the lock off are the
missing-entity early return and the post-swap cooldown timeout; every
subsequent `switchTo` request naming a non-active id is therefore dropped;
and the concrete failing-load schedule exhibits exactly this: the run ends
`errored`, the lock remains set, and a later request is dropped. -/
theorem C10_lock_leak_on_load_failure :
    (∀ (s : TTState) (tid : String), lookupLS s tid = .error →
      stepProc s (.awaitingLoad tid) = [(s, .done .errored)])
  ∧ (∀ (s : TTState) (p : Phase) (s' : TTState) (p' : Phase),
      (s', p') ∈ stepProc s p → s.switchLock = true →
      s'.switchLock = false →
      (∃ tid, p = .resumeLoad tid ∧
        (alookup s.splatEntities s.activeTimeId = none ∨
         alookup s.splatEntities tid = none))
      ∨ p = .cooldown)
  ∧ (∀ (s : TTState) (tid : String), s.switchLock = true →
      tid ≠ s.activeTimeId →
      stepProc s (.start tid) = [(s, .done .dropped)])
  ∧ lockLeakScenarioCheck = true := by
  refine ⟨?_, ?_, ?_, by decide⟩
  · intro s tid h
    simp [stepProc, h]
  · intro s p s' p' hmem hlock hlock'
    cases p with
    | start tid =>
      by_cases h1 : tid = s.activeTimeId
      · simp only [stepProc, if_pos h1, List.mem_singleton,
          Prod.mk.injEq] at hmem
        obtain ⟨rfl, rfl⟩ := hmem
        rw [hlock] at hlock'
        cases hlock'
      · simp only [stepProc, if_neg h1, hlock, if_true, List.mem_singleton,
          Prod.mk.injEq] at hmem
        obtain ⟨rfl, rfl⟩ := hmem
        rw [hlock] at hlock'
        cases hlock'
    | awaitingLoad tid =>
      cases hls : lookupLS s tid with
      | loaded =>
        simp only [stepProc, hls, List.mem_singleton, Prod.mk.injEq] at hmem
        obtain ⟨rfl, rfl⟩ := hmem
        rw [hlock] at hlock'
        cases hlock'
      | error =>
        simp only [stepProc, hls, List.mem_singleton, Prod.mk.injEq] at hmem
        obtain ⟨rfl, rfl⟩ := hmem
        rw [hlock] at hlock'
        cases hlock'
      | loading => simp only [stepProc, hls, List.not_mem_nil] at hmem
      | unloaded => simp only [stepProc, hls, List.not_mem_nil] at hmem
    | awaitingPoll tid =>
      cases hls : lookupLS s tid with
      | loaded =>
        simp only [stepProc, hls, List.mem_singleton, Prod.mk.injEq] at hmem
        obtain ⟨rfl, rfl⟩ := hmem
        rw [hlock] at hlock'
        cases hlock'
      | error => simp only [stepProc, hls, List.not_mem_nil] at hmem
      | loading => simp only [stepProc, hls, List.not_mem_nil] at hmem
      | unloaded => simp only [stepProc, hls, List.not_mem_nil] at hmem
    | resumeLoad tid =>
      cases ha : alookup s.splatEntities s.activeTimeId with
      | none => exact Or.inl ⟨tid, rfl, Or.inl rfl⟩
      | some ea =>
        cases hb : alookup s.splatEntities tid with
        | none => exact Or.inl ⟨tid, rfl, Or.inr hb⟩
        | some eb =>
          simp only [stepProc, ha, hb, List.mem_singleton,
            Prod.mk.injEq] at hmem
          obtain ⟨rfl, rfl⟩ := hmem
          rw [(setEnabled_facts s tid true).2.2.2.1] at hlock'
          rw [hlock] at hlock'
          cases hlock'
    | waitingFrames tid fromId =>
      simp only [stepProc, List.mem_singleton, Prod.mk.injEq] at hmem
      obtain ⟨rfl, rfl⟩ := hmem
      rw [(setEnabled_facts s fromId false).2.2.2.1] at hlock'
      rw [hlock] at hlock'
      cases hlock'
    | finishSwap tid =>
      simp only [stepProc, List.mem_singleton, Prod.mk.injEq] at hmem
      obtain ⟨rfl, rfl⟩ := hmem
      have hcon : s.switchLock = false := hlock'
      rw [hlock] at hcon
      cases hcon
    | cooldown => exact Or.inr rfl
    | done o => simp only [stepProc, List.not_mem_nil] at hmem
  · intro s tid h1 h2
    simp [stepProc, h2, h1]

/-- Witness for C10: the load-rejection step applied at the concrete failed
state — the coroutine ends `errored` with the state untouched. -/
theorem C10_lock_leak_on_load_failure_witness :
    stepProc errState (.awaitingLoad "secondary") =
      [(errState, .done .errored)] :=
  C10_lock_leak_on_load_failure.1 errState "secondary" (by decide)

end Splat
